import Mathlib

/-!
# Verification of the passkey-wallet signature codec and session bridge

Shallow embedding of the crypto/protocol core of the `stupid-simple-api-wallet`
repository: the DER signature decoder, low-s normalization and SPKI point
extraction from `src/utils/crypto.ts`, the authorization packaging and signing
flows from `src/components/WalletConnectModal.tsx` and `src/hooks/useTransfer.ts`,
and the request-bridge handlers from `src/hooks/useWalletConnect.ts`.

Byte sequences are modelled as `List Nat` (a `Uint8Array` always holds values
`< 256`; theorems that depend on this carry the bound as a hypothesis).
JS out-of-bounds indexed reads yield `undefined`; we model a read as
`Option Nat` (`none` = `undefined`) and translate the `undefined` propagation
of the source faithfully at each use site.
-/

namespace SlopWallet

/-- JS `bytes[i]` on a `Uint8Array`: `some` when in bounds, `none` models
`undefined`. -/
def byteAt (bytes : List Nat) (i : Nat) : Option Nat := bytes[i]?

/-- JS `bytes.slice(start, start + len)` on a typed array (clamps to bounds). -/
def sliceList (bytes : List Nat) (start len : Nat) : List Nat :=
  (bytes.drop start).take len

/-- Error taxonomy of the signature codec (`src/utils/crypto.ts`): the three
`throw new Error("Invalid ASN.1 signature: ...")` sites plus the implicit
`RangeError` thrown by `TypedArray.set` when given a negative offset, and the
`"SPKI key too short"` throw of `extractPublicKeyFromSpki`. -/
inductive CryptoError where
  | expectedSequence  -- "Invalid ASN.1 signature: expected SEQUENCE"
  | expectedIntR      -- "Invalid ASN.1 signature: expected INTEGER for r"
  | expectedIntS      -- "Invalid ASN.1 signature: expected INTEGER for s"
  | rangeError        -- RangeError from `rPadded.set`/`sPadded.set` (offset < 0)
  | spkiTooShort      -- "SPKI key too short"
  deriving DecidableEq, Repr

/-- Source `crypto.ts` lines 47-50 / 58-61: remove a leading zero byte from an INTEGER
component, but only when the remaining length still exceeds 32 bytes
(`if (rBytes[0] === 0x00 && rBytes.length > 32) rBytes = rBytes.slice(1)`). -/
def stripLeadingZero (b : List Nat) : List Nat :=
  if b.head? = some 0 ∧ 32 < b.length then b.tail else b

/-- Source `crypto.ts` lines 64-67: `const rPadded = new Uint8Array(32);
rPadded.set(rBytes, 32 - rBytes.length)`.  When the component is longer than
32 bytes the JS offset `32 - rBytes.length` is negative and `TypedArray.set`
throws a `RangeError`; otherwise the result is the component right-aligned in
32 zero bytes. -/
def padTo32 (b : List Nat) : Except CryptoError (List Nat) :=
  if b.length ≤ 32 then .ok (List.replicate (32 - b.length) 0 ++ b)
  else .error .rangeError

/-- Source `crypto.ts` lines 34-38: offset of the `r` INTEGER tag after skipping the
SEQUENCE length byte(s).  `seqLen & 0x80` selects long-form length, in which
case `seqLen & 0x7f` further bytes are skipped; an out-of-bounds read of the
length byte is JS `undefined`, and `undefined & 0x80 === 0`, so no skip. -/
def rTagOff (bytes : List Nat) : Nat :=
  let seqLen := (byteAt bytes 1).getD 0
  if seqLen &&& 0x80 ≠ 0 then 2 + (seqLen &&& 0x7f) else 2

/-- Offset of the `s` INTEGER tag: `rTagOff + 2 + rLen`.  When the `rLen` read
is out of bounds the JS offset becomes `NaN` (and stays `NaN`), modelled as
`none`. -/
def sTagOff (bytes : List Nat) : Option Nat :=
  (byteAt bytes (rTagOff bytes + 1)).map (fun rLen => rTagOff bytes + 2 + rLen)

/-- Function `parseAsn1Signature` (`crypto.ts` lines 22-83) up to the two padded 32-byte
components.  Mirrors the source statement by statement, including the
`undefined`/`NaN` behaviour of out-of-bounds reads:
* a SEQUENCE-tag mismatch (or out-of-bounds first byte) throws;
* an INTEGER-tag mismatch for `r` throws;
* when the `rLen` read is out of bounds the running offset becomes `NaN` and
  the subsequent `s`-tag read is `undefined`, so the `s` INTEGER check throws;
* when the `sLen` read is out of bounds, `slice(offset, NaN)` is empty, so the
  `s` component is empty (padded to 32 zero bytes);
* each component strips one leading zero byte only when longer than 32 bytes,
  and `TypedArray.set` throws a `RangeError` (not truncation) when a component
  is still longer than 32 bytes. -/
def parseAsn1Components (bytes : List Nat) :
    Except CryptoError (List Nat × List Nat) :=
  if byteAt bytes 0 ≠ some 0x30 then .error .expectedSequence
  else
    let o := rTagOff bytes
    if byteAt bytes o ≠ some 0x02 then .error .expectedIntR
    else
      match byteAt bytes (o + 1) with
      | none => .error .expectedIntS
      | some rLen =>
        let rBytes := stripLeadingZero (sliceList bytes (o + 2) rLen)
        let o2 := o + 2 + rLen
        if byteAt bytes o2 ≠ some 0x02 then .error .expectedIntS
        else
          let sBytes :=
            match byteAt bytes (o2 + 1) with
            | none => []
            | some sLen => stripLeadingZero (sliceList bytes (o2 + 2) sLen)
          match padTo32 rBytes, padTo32 sBytes with
          | .ok rP, .ok sP => .ok (rP, sP)
          | .error e, _ => .error e
          | .ok _, .error e => .error e

/-- Big-endian unsigned interpretation of a byte list:
`BigInt("0x" + bytes-as-hex)` in the source. -/
def beNat (l : List Nat) : Nat := l.foldl (fun acc b => acc * 256 + b) 0

/-- Function `parseAsn1Signature` (`crypto.ts` lines 22-83): the padded components as
unsigned big-endian integers `{ r, s }`. -/
def parseAsn1Signature (bytes : List Nat) : Except CryptoError (Nat × Nat) :=
  (parseAsn1Components bytes).map (fun p => (beNat p.1, beNat p.2))

/-- secp256r1 curve order, `crypto.ts` lines 87-89. -/
def curveOrder : Int :=
  0xFFFFFFFF00000000FFFFFFFFFFFFFFFFBCE6FAADA7179E84F3B9CAC2FC632551

/-- Value `halfOrder = curveOrder / 2n` (`crypto.ts` line 90; BigInt division
truncates, and `curveOrder` is positive, so this is floor division). -/
def halfOrder : Int := curveOrder / 2

/-- Function `normalizeS` (`crypto.ts` lines 86-92): low-s normalization over JS
BigInts, `s > halfOrder ? curveOrder - s : s`. -/
def normalizeS (s : Int) : Int := if s > halfOrder then curveOrder - s else s

/-! ## Hex rendering (`b.toString(16)` / `padStart`) -/

/-- The sixteen lower-case hex digit characters. -/
def hexDigits : List Char := "0123456789abcdef".data

/-- The hex digit for a value `< 16`. -/
def hexDigit (n : Nat) : Char := hexDigits.getD n '0'

/-- Hex digits of `n`, most significant first, by division by 16; `fuel`
bounds the recursion depth (structural recursion so that terms reduce in the
kernel; `fuel = n` always suffices). -/
def natToHexAux : Nat → Nat → List Char
  | 0, _ => []
  | fuel + 1, n =>
    if n = 0 then [] else natToHexAux fuel (n / 16) ++ [hexDigit (n % 16)]

/-- JS `n.toString(16)` for a non-negative integer, as a character list. -/
def natToHex (n : Nat) : List Char :=
  if n = 0 then ['0'] else natToHexAux n n

/-- JS `s.padStart(len, "0")` (never truncates). -/
def padStartZeros (len : Nat) (s : List Char) : List Char :=
  List.replicate (len - s.length) '0' ++ s

/-- JS `b.toString(16).padStart(2, "0")` for one byte. -/
def byteToHex2 (b : Nat) : List Char := padStartZeros 2 (natToHex b)

/-- Expression `"0x" + Array.from(bytes).map(b => b.toString(16).padStart(2,"0")).join("")`,
the hex rendering used throughout `crypto.ts`. -/
def hexOfBytes (bytes : List Nat) : String :=
  ⟨'0' :: 'x' :: (bytes.map byteToHex2).flatten⟩

/-! ## `extractPublicKeyFromSpki` (`crypto.ts` lines 95-157) -/

/-- The scan loop of `extractPublicKeyFromSpki` (lines 114-123):
`for (let i = 0; i < bytes.length - 64; i++) if (bytes[i] === 0x04 &&
bytes.length - i === 65) { pointStart = i; break; }` — the first index
`i < length - 64` whose byte is `0x04` and which sits at `length - 65`. -/
def findPointStart (bytes : List Nat) : Option Nat :=
  (List.range (bytes.length - 64)).find?
    (fun i => decide (byteAt bytes i = some 0x04 ∧ bytes.length - i = 65))

/-- Function `extractPublicKeyFromSpki` (`crypto.ts` lines 95-157): fails only when the
blob is shorter than 65 bytes; extracts the 64 bytes after an `0x04` marker at
offset `length - 65` when the scan finds one, and otherwise falls back to the
blob's last 64 bytes; renders each coordinate as `0x`-prefixed hex. -/
def extractPublicKeyFromSpki (bytes : List Nat) :
    Except CryptoError (String × String) :=
  if bytes.length < 65 then .error .spkiTooShort
  else
    match findPointStart bytes with
    | none =>
      .ok (hexOfBytes (sliceList bytes (bytes.length - 64) 32),
           hexOfBytes (sliceList bytes (bytes.length - 32) 32))
    | some p =>
      .ok (hexOfBytes (sliceList bytes (p + 1) 32),
           hexOfBytes (sliceList bytes (p + 33) 32))

/-! ## Base64 / base64url (`bufferToBase64url`, `base64urlToBytes`) -/

/-- The standard base64 alphabet used by `btoa`/`atob`. -/
def b64Alphabet : List Char :=
  "ABCDEFGHIJKLMNOPQRSTUVWXYZabcdefghijklmnopqrstuvwxyz0123456789+/".data

/-- Encoding table lookup for a 6-bit value. -/
def b64Char (n : Nat) : Char := b64Alphabet.getD n 'A'

/-- Decoding table lookup (`atob`'s inverse alphabet lookup). -/
def b64Index (c : Char) : Nat := b64Alphabet.indexOf c

/-- Browser `btoa` on a binary string whose char codes are the given bytes:
3-byte groups become 4 alphabet chars; a 1- or 2-byte tail is encoded with
`==` / `=` padding. -/
def btoaChars : List Nat → List Char
  | [] => []
  | [b0] =>
    let n := b0 * 65536
    [b64Char (n / 262144), b64Char (n / 4096 % 64), '=', '=']
  | [b0, b1] =>
    let n := b0 * 65536 + b1 * 256
    [b64Char (n / 262144), b64Char (n / 4096 % 64), b64Char (n / 64 % 64), '=']
  | b0 :: b1 :: b2 :: rest =>
    let n := b0 * 65536 + b1 * 256 + b2
    b64Char (n / 262144) :: b64Char (n / 4096 % 64) :: b64Char (n / 64 % 64) ::
      b64Char (n % 64) :: btoaChars rest

/-- Browser `atob` on a well-formed base64 string: 4-char groups become 3
bytes; a final `xx==` group yields one byte and a final `xxx=` group two. -/
def atobChars : List Char → List Nat
  | c0 :: c1 :: c2 :: c3 :: rest =>
    if c2 = '=' ∧ rest = [] then
      [b64Index c0 * 4 + b64Index c1 / 16]
    else if c3 = '=' ∧ rest = [] then
      let n := b64Index c0 * 262144 + b64Index c1 * 4096 + b64Index c2 * 64
      [n / 65536, n / 256 % 256]
    else
      let n := b64Index c0 * 262144 + b64Index c1 * 4096 + b64Index c2 * 64 +
        b64Index c3
      n / 65536 :: n / 256 % 256 :: n % 256 :: atobChars rest
  | _ => []

/-- The character substitution of `bufferToBase64url`: every `+` becomes `-`
and every `/` becomes `_` (the two global `replace` calls). -/
def stdToUrl (c : Char) : Char :=
  if c = '+' then '-' else if c = '/' then '_' else c

/-- The reverse character substitution: every `-` becomes `+` and every `_`
becomes `/` (the two global `replace` calls in `base64urlToBytes`). -/
def urlToStd (c : Char) : Char :=
  if c = '-' then '+' else if c = '_' then '/' else c

/-- Function `bufferToBase64url` (`crypto.ts` lines 12-19): `btoa` of the byte string,
then `+`→`-`, `/`→`_`, and all `=` padding removed. -/
def bufferToBase64url (b : List Nat) : List Char :=
  ((btoaChars b).map stdToUrl).filter (fun c => c ≠ '=')

/-- Re-adding of `=` padding: `"=".repeat((4 - (base64.length % 4)) % 4)`
appended (`crypto.ts` lines 162-163). -/
def repad (l : List Char) : List Char :=
  l ++ List.replicate ((4 - l.length % 4) % 4) '='

/-- Function `base64urlToBytes` (`crypto.ts` lines 160-169): reverse the character
substitutions, re-add `=` padding, then `atob` and take the char codes. -/
def base64urlToBytes (s : List Char) : List Nat :=
  atobChars (repad (s.map urlToStd))

/-! ## JS `String.prototype.indexOf` -/

/-- Value `indexOfAux s pat i`: smallest index `≥ i` (in the original string) at
which `pat` occurs in the remaining suffix `s`, or `-1`. -/
def indexOfAux : List Char → List Char → Nat → Int
  | [], pat, i => if pat = [] then (i : Int) else -1
  | c :: t, pat, i =>
    if pat.isPrefixOf (c :: t) then (i : Int) else indexOfAux t pat (i + 1)

/-- JS `s.indexOf(pat)`: index of the first occurrence of `pat`, or `-1`. -/
def strIndexOf (s pat : String) : Int := indexOfAux s.data pat.data 0

example : strIndexOf "abcbc" "bc" = 1 := by rfl

example : strIndexOf "abcbc" "bd" = -1 := by rfl

example : extractPublicKeyFromSpki (List.replicate 65 4) =
    .ok (hexOfBytes (List.replicate 32 4), hexOfBytes (List.replicate 32 4)) := by rfl

example : base64urlToBytes (bufferToBase64url [72, 105, 255, 254]) =
    [72, 105, 255, 254] := by rfl

example : parseAsn1Signature [0x30, 0x06, 0x02, 0x01, 0x05, 0x02, 0x01, 0x07] =
    .ok (5, 7) := by rfl

example : parseAsn1Signature [0x31] = .error .expectedSequence := by rfl

example : normalizeS 1 = 1 := by decide

/-! ## Data model (`src/types.ts`, `src/hooks/useWalletConnect.ts`) -/

/-- JS truthiness of a `string | undefined` value: `undefined` and the empty
string are falsy. -/
def truthyStr : Option String → Bool
  | none => false
  | some s => !(s == "")

/-- JS `a || d` for a `string | undefined` value `a` and a string default. -/
def jsOrStr (a : Option String) (d : String) : String :=
  match a with
  | none => d
  | some s => if s == "" then d else s

/-- Type `PasskeyCredential` (`types.ts` lines 33-40); optional fields are
`Option`. -/
structure PasskeyCredential where
  id : String
  rawId : String
  publicKey : Option String
  qx : Option String
  qy : Option String
  deriving Repr, DecidableEq

/-- Type `WebAuthnAuth` (`types.ts` lines 24-31): the wire payload handed to the
facilitator. -/
structure WebAuthnAuth where
  r : String
  s : String
  challengeIndex : String
  typeIndex : String
  authenticatorData : String
  clientDataJSON : String
  deriving Repr, DecidableEq

/-- Type `CallParams` (`useWalletConnect.ts` lines 27-34); `from` and `to` are Lean
keywords so the fields are named `fromAddr`/`toAddr`. -/
structure CallParams where
  fromAddr : Option String
  toAddr : Option String
  value : Option String
  data : Option String
  gas : Option String
  gasPrice : Option String
  deriving Repr, DecidableEq

/-- Peer metadata carried on a queued request (`useWalletConnect.ts` lines
45-50). -/
structure PeerMeta where
  name : String
  description : Option String
  url : Option String
  icons : Option (List String)
  deriving Repr, DecidableEq

/-- Type `SessionRequest` (`useWalletConnect.ts` lines 36-51). -/
structure SessionRequest where
  id : Nat
  topic : String
  method : String
  chainId : String
  params : CallParams
  calls : Option (List CallParams)
  batchId : Option String
  timestamp : Nat
  peerMeta : Option PeerMeta
  deriving Repr, DecidableEq

/-- One receipt log entry (`useWalletConnect.ts` lines 60). -/
structure LogEntry where
  address : String
  data : String
  topics : List String
  deriving Repr, DecidableEq

/-- One batch receipt (`useWalletConnect.ts` lines 59-66). -/
structure Receipt where
  logs : List LogEntry
  status : String
  blockHash : String
  blockNumber : String
  gasUsed : String
  transactionHash : String
  deriving Repr, DecidableEq

/-- Type `BatchCallStatus` (`useWalletConnect.ts` lines 53-67). -/
structure BatchCallStatus where
  batchId : String
  chainId : String
  status : Nat
  atomic : Bool
  txHash : Option String
  receipts : Option (List Receipt)
  deriving Repr, DecidableEq

/-- The `Partial<BatchCallStatus>` updates actually passed to
`updateBatchStatus` by its callers (`WalletConnectModal.tsx` lines 637-640,
661, 672): only `status` and `txHash` ever occur. -/
structure BatchStatusUpdate where
  status : Option Nat
  txHash : Option String
  deriving Repr, DecidableEq

/-! ## Collaborator responses (§6 of the spec; `types.ts`) -/

/-- One prepared call `{target, value, data}` in a collaborator response. -/
structure PreparedCall where
  target : String
  value : String
  data : String
  deriving Repr, DecidableEq

/-- Response of the `prepare-call` collaborator consumed by
`handleSignWithPasskey` (`WalletConnectModal.tsx` lines 547-552). -/
structure PrepareCallResponse where
  success : Bool
  errorMsg : Option String
  challengeHash : String
  deadline : Nat
  calls : List PreparedCall
  isBatch : Bool
  deriving Repr, DecidableEq

/-- Response of the `prepare-transfer` collaborator (`types.ts` lines 11-21). -/
structure PrepareTransferResponse where
  success : Bool
  call : PreparedCall
  nonce : String
  deadline : String
  challengeHash : String
  deriving Repr, DecidableEq

/-- Result of the single WebAuthn assertion ceremony: the DER signature bytes,
the raw authenticator data, and the decoded `clientDataJSON` text. -/
structure AssertionData where
  signature : List Nat
  authenticatorData : List Nat
  clientDataJSON : String
  deriving Repr, DecidableEq

/-- Response of the `facilitate` collaborator. -/
structure FacilitateResponse where
  success : Bool
  txHash : Option String
  errorMsg : Option String
  deriving Repr, DecidableEq

/-- Error messages of the modelled throw sites (`crypto.ts`; the `RangeError`
message is the engine's own). -/
def cryptoErrorMessage : CryptoError → String
  | .expectedSequence => "Invalid ASN.1 signature: expected SEQUENCE"
  | .expectedIntR => "Invalid ASN.1 signature: expected INTEGER for r"
  | .expectedIntS => "Invalid ASN.1 signature: expected INTEGER for s"
  | .rangeError => "offset is out of bounds"
  | .spkiTooShort => "SPKI key too short"

/-- JS `i.toString(16)` for a BigInt (negative values render with a leading
minus sign). -/
def intToHex (i : Int) : List Char :=
  if i < 0 then '-' :: natToHex i.natAbs else natToHex i.toNat

/-- Expression `"0x" + v.toString(16).padStart(64, "0")` (`WalletConnectModal.tsx` lines
592-593, `useTransfer.ts` lines 156-157). -/
def toHexPad64 (i : Int) : String :=
  ⟨'0' :: 'x' :: padStartZeros 64 (intToHex i)⟩

/-- The literal marker substring `"challenge"` searched inside
`clientDataJSON`. -/
def challengeMarker : String := "\"challenge\""

/-- The literal marker substring `"type"` searched inside `clientDataJSON`. -/
def typeMarker : String := "\"type\""

/-- Authorization packaging (`WalletConnectModal.tsx` lines 592-614,
`useTransfer.ts` lines 156-180): hex-rendered `r`/`s`, the `indexOf` offsets
of the two marker substrings rendered with `toString()` (so `-1` when a marker
is absent), the hex authenticator data, and the raw `clientDataJSON` text.
Total: the source performs no check on the `indexOf` results. -/
def packageAuth (r s : Int) (authenticatorData : List Nat)
    (clientDataJSON : String) : WebAuthnAuth :=
  { r := toHexPad64 r
    s := toHexPad64 s
    challengeIndex := toString (strIndexOf clientDataJSON challengeMarker)
    typeIndex := toString (strIndexOf clientDataJSON typeMarker)
    authenticatorData := hexOfBytes authenticatorData
    clientDataJSON := clientDataJSON }

/-! ## The WalletConnect signing flow (`handleSignWithPasskey`,
`WalletConnectModal.tsx` lines 498-666)

The flow's collaborator interactions are modelled as an environment of
responses; the trace records which collaborators were contacted, the payload
handed to the facilitator, the `txError` status message, the
`updateBatchStatus` calls and the approve/clear/toast effects.  The request
body of `prepare-call` (chain id, wallet, credential coordinates, call list)
is built from data the verified properties never mention and is not
reproduced here. -/

/-- Environment of collaborator responses for one run of
`handleSignWithPasskey`: a `none` assertion models a cancelled or failed
ceremony (the `await` threw or returned nothing). -/
structure SignEnv where
  prepare : PrepareCallResponse
  assertion : Option AssertionData
  facilitate : FacilitateResponse
  deriving Repr, DecidableEq

/-- Observable outcome of one `handleSignWithPasskey` run. -/
structure SignFlowTrace where
  prepareCalled : Bool
  ceremonyPerformed : Bool
  facilitateCalled : Bool
  authSent : Option WebAuthnAuth
  txError : Option String
  batchUpdates : List (String × BatchStatusUpdate)
  approveSent : Option (Nat × String × String)
  cleared : Bool
  toast : Option (String × String)
  deriving Repr, DecidableEq

/-- The empty trace (nothing contacted, no effects). -/
def emptyTrace : SignFlowTrace :=
  { prepareCalled := false, ceremonyPerformed := false,
    facilitateCalled := false, authSent := none, txError := none,
    batchUpdates := [], approveSent := none, cleared := false, toast := none }

/-- The `catch` block of `handleSignWithPasskey` (lines 656-662): records the
error message and, for a batch call with a truthy `batchId`, a
`status: 500` batch update. -/
def signCatch (isBatchCall : Bool) (batchId : Option String) (msg : String)
    (t : SignFlowTrace) : SignFlowTrace :=
  { t with
    txError := some msg
    batchUpdates := t.batchUpdates ++
      (if isBatchCall ∧ truthyStr batchId then
        [(batchId.getD "", { status := some 500, txHash := none })]
      else []) }

/-- Function `handleSignWithPasskey` (`WalletConnectModal.tsx` lines 498-666), statement
by statement: the missing-public-key guard, the `prepare-call` request, the
assertion ceremony, DER decoding + low-s normalization + authorization
packaging, the `facilitate` request, and the success / catch effects. -/
def handleSignWithPasskey (credential : PasskeyCredential)
    (request : SessionRequest) (env : SignEnv) : SignFlowTrace :=
  let isBatchCall := request.method == "wallet_sendCalls"
  if ¬(truthyStr credential.qx ∧ truthyStr credential.qy) then
    { emptyTrace with txError := some "Passkey public key not available" }
  else
    let t1 := { emptyTrace with prepareCalled := true }
    if ¬env.prepare.success then
      signCatch isBatchCall request.batchId
        (jsOrStr env.prepare.errorMsg "Failed to prepare transaction") t1
    else
      let t2 := { t1 with ceremonyPerformed := true }
      match env.assertion with
      | none => signCatch isBatchCall request.batchId
          "Passkey signing cancelled" t2
      | some a =>
        match parseAsn1Signature a.signature with
        | .error e =>
          signCatch isBatchCall request.batchId (cryptoErrorMessage e) t2
        | .ok (r, rawS) =>
          let s := normalizeS (rawS : Int)
          let auth := packageAuth (r : Int) s a.authenticatorData
            a.clientDataJSON
          let t3 := { t2 with facilitateCalled := true, authSent := some auth }
          if env.facilitate.success ∧ truthyStr env.facilitate.txHash then
            let txHash := (env.facilitate.txHash).getD ""
            { t3 with
              batchUpdates :=
                if isBatchCall ∧ truthyStr request.batchId then
                  [((request.batchId).getD "",
                    { status := some 200, txHash := some txHash })]
                else []
              approveSent :=
                if ¬isBatchCall then some (request.id, request.topic, txHash)
                else none
              cleared := isBatchCall
              toast := some (txHash,
                jsOrStr (request.peerMeta.map (fun p => p.name)) "dApp") }
          else
            signCatch isBatchCall request.batchId
              (jsOrStr env.facilitate.errorMsg "Transaction failed") t3

/-! ## The transfer signing flow (`handleTransfer`, `useTransfer.ts` lines
53-227) -/

/-- The React state owned by `useTransfer` that `handleTransfer` mutates. -/
structure TransferState where
  recipientAddress : String
  transferAmount : String
  isTransferring : Bool
  transferStatus : String
  transferTxHash : Option String
  showSuccessToast : Bool
  deriving Repr, DecidableEq

/-- Observable collaborator interactions of one `handleTransfer` run. -/
structure TransferTrace where
  prepareCalled : Bool
  ceremonyPerformed : Bool
  facilitateCalled : Bool
  onSuccessCalled : Bool
  authSent : Option WebAuthnAuth
  deriving Repr, DecidableEq

/-- Environment of collaborator responses for one `handleTransfer` run. -/
structure TransferEnv where
  prepare : PrepareTransferResponse
  assertion : Option AssertionData
  facilitate : FacilitateResponse
  deriving Repr, DecidableEq

/-- The trace before any collaborator is contacted. -/
def emptyTransferTrace : TransferTrace :=
  { prepareCalled := false, ceremonyPerformed := false,
    facilitateCalled := false, onSuccessCalled := false, authSent := none }

/-- The `finally` block of `handleTransfer` (line 223):
`setIsTransferring(false)`. -/
def transferFinally (st : TransferState) : TransferState :=
  { st with isTransferring := false }

/-- Function `handleTransfer` (`useTransfer.ts` lines 53-227), statement by statement:
the missing-fields guard, the recipient-address guard, the missing-public-key
guard, then `prepare-transfer`, the assertion ceremony, DER decoding + low-s
normalization + authorization packaging, `facilitate`, and the success /
catch / finally effects.  The result is the final state (after `finally`) and
the interaction trace. -/
def handleTransfer (credential : Option PasskeyCredential)
    (smartContractWallet : Option String) (finalRecipient : String)
    (env : TransferEnv) (st : TransferState) :
    TransferState × TransferTrace :=
  if ¬(credential.isSome ∧ truthyStr smartContractWallet ∧
      ¬finalRecipient = "" ∧ ¬st.transferAmount = "") then
    ({ st with transferStatus := "✗ Missing required fields" },
     emptyTransferTrace)
  else
    let cred := credential.getD
      { id := "", rawId := "", publicKey := none, qx := none, qy := none }
    if ¬(finalRecipient.startsWith "0x") ∨ ¬finalRecipient.length = 42 then
      ({ st with transferStatus := "✗ Invalid recipient address" },
       emptyTransferTrace)
    else if ¬(truthyStr cred.qx ∧ truthyStr cred.qy) then
      ({ st with transferStatus :=
          "✗ Passkey public key not available. Please regenerate passkey." },
       emptyTransferTrace)
    else
      let st1 := { st with isTransferring := true,
                           transferStatus := "Preparing transfer...",
                           transferTxHash := none }
      let tr1 := { emptyTransferTrace with prepareCalled := true }
      if ¬env.prepare.success then
        (transferFinally
          { st1 with transferStatus := "✗ Failed to prepare transfer" }, tr1)
      else
        let st2 := { st1 with transferStatus := "Please sign with passkey..." }
        let tr2 := { tr1 with ceremonyPerformed := true }
        match env.assertion with
        | none =>
          (transferFinally
            { st2 with transferStatus := "✗ No assertion returned from passkey" },
           tr2)
        | some a =>
          match parseAsn1Signature a.signature with
          | .error e =>
            (transferFinally
              { st2 with transferStatus := "✗ " ++ cryptoErrorMessage e }, tr2)
          | .ok (r, rawS) =>
            let s := normalizeS (rawS : Int)
            let auth := packageAuth (r : Int) s a.authenticatorData
              a.clientDataJSON
            let st3 := { st2 with transferStatus := "Submitting transaction..." }
            let tr3 := { tr2 with facilitateCalled := true,
                                  authSent := some auth }
            if env.facilitate.success ∧ truthyStr env.facilitate.txHash then
              let txHash := (env.facilitate.txHash).getD ""
              (transferFinally
                { st3 with transferTxHash := some txHash,
                           transferStatus := "✓ Transfer complete!",
                           showSuccessToast := true,
                           recipientAddress := "", transferAmount := "" },
               { tr3 with onSuccessCalled := true })
            else
              (transferFinally
                { st3 with transferStatus :=
                    "✗ " ++ jsOrStr env.facilitate.errorMsg "Transaction failed" },
               tr3)

/-! ## The request bridge (`useWalletConnect.ts`) -/

/-- JS `Map.get` on the `batchStatusesRef` map (association list preserving
insertion order). -/
def mapGet (m : List (String × BatchCallStatus)) (k : String) :
    Option BatchCallStatus :=
  (m.find? (fun p => p.1 == k)).map (fun p => p.2)

/-- JS `Map.set`: replaces the value in place when the key is present,
otherwise appends the new entry. -/
def mapSet (m : List (String × BatchCallStatus)) (k : String)
    (v : BatchCallStatus) : List (String × BatchCallStatus) :=
  if (m.find? (fun p => p.1 == k)).isSome then
    m.map (fun p => if p.1 == k then (k, v) else p)
  else m ++ [(k, v)]

/-- Function `updateBatchStatus` (`useWalletConnect.ts` lines 584-593): no-op on an
unknown id, otherwise the spread `{ ...current, ...updates }` restricted to
the `status`/`txHash` fields its callers pass. -/
def updateBatchStatus (m : List (String × BatchCallStatus)) (batchId : String)
    (upd : BatchStatusUpdate) : List (String × BatchCallStatus) :=
  match mapGet m batchId with
  | none => m
  | some cur =>
    mapSet m batchId
      { cur with
        status := upd.status.getD cur.status
        txHash := match upd.txHash with
          | some h => some h
          | none => cur.txHash }

/-- The `wallet_getCallsStatus` result object (`useWalletConnect.ts` lines
289-296).  Note the source builds it from `version`, `id`, `chainId`,
`status`, `atomic` and (conditionally) `receipts` only — the record's
`txHash` is never copied into the response. -/
structure CallsStatusResult where
  version : String
  id : String
  chainId : String
  status : Nat
  atomic : Bool
  receipts : Option (List Receipt)
  deriving Repr, DecidableEq

/-- The JSON-RPC reply sent for a `wallet_getCallsStatus` request: either a
result object or a structured `{code, message}` error. -/
inductive CallsStatusReply where
  | ok (r : CallsStatusResult)
  | rpcError (code : Nat) (message : String)
  deriving Repr, DecidableEq

/-- The `wallet_getCallsStatus` branch of `handleSessionRequest`
(`useWalletConnect.ts` lines 268-307): unknown batch id → structured RPC
error `{code: 5730, message: "Unknown batch id"}` (responded, not thrown);
known id → result built from the stored record. -/
def handleGetCallsStatus (m : List (String × BatchCallStatus))
    (batchId : String) : CallsStatusReply :=
  match mapGet m batchId with
  | none => .rpcError 5730 "Unknown batch id"
  | some bs =>
    .ok { version := "2.0.0", id := bs.batchId, chainId := bs.chainId,
          status := bs.status, atomic := bs.atomic, receipts := bs.receipts }

/-- Template `` `0x${Date.now().toString(16).padStart(16, "0")}${Math.random()
.toString(16).slice(2).padStart(48, "0")}` `` (`useWalletConnect.ts` lines
350-355): the minted batch id, as a function of the current time in
milliseconds and of the fraction digits produced by the `Math.random()`
sample. -/
def mintBatchId (nowMs : Nat) (randDigits : String) : String :=
  ⟨'0' :: 'x' ::
    (padStartZeros 16 (natToHex nowMs) ++ padStartZeros 48 randDigits.data)⟩

/-- The in-memory state owned by the request bridge: the queued session
requests and the batch-status map. -/
structure BridgeState where
  sessionRequests : List SessionRequest
  batchStatuses : List (String × BatchCallStatus)
  deriving Repr, DecidableEq

/-- The raw parameters of an inbound `wallet_sendCalls` request (after the
`Array.isArray` unwrap of `request.params[0]`). -/
structure SendCallsParams where
  fromAddr : Option String
  chainId : Option String
  calls : Option (List CallParams)
  deriving Repr, DecidableEq

/-- The immediate JSON-RPC reply of the `wallet_sendCalls` branch:
`result: { id: batchId }`. -/
structure SendCallsReply where
  id : String
  deriving Repr, DecidableEq

/-- The `wallet_sendCalls` branch of `handleSessionRequest`
(`useWalletConnect.ts` lines 341-394): normalizes the call list to
`{to, value, data}`, mints a batch id from the current time and a random
sample, registers a `BatchCallStatus` with status `100` and `atomic: true`,
enqueues a `SessionRequest` carrying the batch id, and immediately replies
with `{ id: batchId }` — the reply is a function of the inbound request
alone, independent of any approval, signing or facilitation input. -/
def handleWalletSendCalls (st : BridgeState) (reqId : Nat) (topic : String)
    (eventChainId : String) (params : SendCallsParams) (nowMs : Nat)
    (randDigits : String) (peerMeta : Option PeerMeta) :
    BridgeState × SendCallsReply :=
  let calls := (params.calls.getD []).map (fun c =>
    { fromAddr := none, toAddr := c.toAddr, value := c.value, data := c.data,
      gas := none, gasPrice := none : CallParams })
  let batchId := mintBatchId nowMs randDigits
  let requestChainId := jsOrStr params.chainId eventChainId
  let sessionRequest : SessionRequest :=
    { id := reqId, topic := topic, method := "wallet_sendCalls",
      chainId := requestChainId,
      params := { fromAddr := params.fromAddr, toAddr := none, value := none,
                  data := none, gas := none, gasPrice := none }
      calls := some calls, batchId := some batchId, timestamp := nowMs,
      peerMeta := peerMeta }
  let initialStatus : BatchCallStatus :=
    { batchId := batchId, chainId := requestChainId, status := 100,
      atomic := true, txHash := none, receipts := none }
  ({ sessionRequests := st.sessionRequests ++ [sessionRequest],
     batchStatuses := mapSet st.batchStatuses batchId initialStatus },
   { id := batchId })

/-! ## `pair` (`useWalletConnect.ts` lines 466-490) -/

/-- The connection status state machine of `useWalletConnect`
(lines 80-86). -/
inductive ConnStatus where
  | idle
  | initializing
  | ready
  | pairing
  | connected
  | errorState
  deriving Repr, DecidableEq

/-- The `status`/`error` React state that `pair` touches. -/
structure WCUiState where
  status : ConnStatus
  errorMsg : Option String
  deriving Repr, DecidableEq

/-- Function `pair` (`useWalletConnect.ts` lines 466-490): uninitialized kit → error
message only; URI without the `wc:` scheme prefix → error message only, state
untouched; otherwise enter `pairing` and, when the transport `pair` call
rejects, fall back to `connected` when active sessions exist and to `ready`
otherwise (a successful transport call leaves the status at `pairing` until
session events arrive). -/
def pair (walletKitInit : Bool) (uri : String) (activeSessionsLen : Nat)
    (transportPairSucceeds : Bool) (transportErrMsg : String)
    (st : WCUiState) : WCUiState :=
  if ¬walletKitInit then
    { st with errorMsg := some "WalletConnect not initialized" }
  else if ¬"wc:".data.isPrefixOf uri.data then
    { st with errorMsg := some "Invalid WalletConnect URI" }
  else if transportPairSucceeds then
    { status := .pairing, errorMsg := none }
  else
    { status := if activeSessionsLen > 0 then .connected else .ready,
      errorMsg := some transportErrMsg }

/-- A DER blob with a missing SEQUENCE tag or a missing INTEGER tag at the
positions the decoder inspects: the first byte is not `0x30`, or the byte at
the `r`-tag offset is not `0x02`, or the `s`-tag position cannot be reached /
does not hold `0x02` (an out-of-bounds read is JS `undefined`, which also
fails the tag comparisons). -/
def derTagMissing (bytes : List Nat) : Prop :=
  byteAt bytes 0 ≠ some 0x30 ∨
  byteAt bytes (rTagOff bytes) ≠ some 0x02 ∨
  byteAt bytes (rTagOff bytes + 1) = none ∨
  (∃ rLen, byteAt bytes (rTagOff bytes + 1) = some rLen ∧
    byteAt bytes (rTagOff bytes + 2 + rLen) ≠ some 0x02)

/-! ## Theorems -/

/-- The curve order is odd and twice the half order plus one. -/
theorem curveOrder_eq_two_half_add_one : curveOrder = 2 * halfOrder + 1 := by
  decide

/-- C5: `normalizeS` returns `curveOrder - s` when `s > halfOrder` and `s`
unchanged otherwise; for `halfOrder < s ≤ curveOrder` the output is
`≤ halfOrder`; and it is idempotent on already-canonical (`≤ halfOrder`)
inputs. -/
theorem normalizeS_low_s (s : Int) :
    (halfOrder < s → normalizeS s = curveOrder - s) ∧
    (s ≤ halfOrder → normalizeS s = s) ∧
    (halfOrder < s → s ≤ curveOrder → normalizeS s ≤ halfOrder) ∧
    (s ≤ halfOrder → normalizeS (normalizeS s) = normalizeS s) := by
  have hco := curveOrder_eq_two_half_add_one
  refine ⟨fun h => ?_, fun h => ?_, fun h1 h2 => ?_, fun h => ?_⟩
  · simp only [normalizeS, if_pos (show s > halfOrder from h)]
  · simp only [normalizeS, if_neg (show ¬s > halfOrder from not_lt.mpr h)]
  · simp only [normalizeS, if_pos (show s > halfOrder from h1)]
    omega
  · simp only [normalizeS, if_neg (show ¬s > halfOrder from not_lt.mpr h)]

/-- C5 witness: `normalizeS` at `curveOrder - 1 > halfOrder` and at `1`. -/
theorem normalizeS_low_s_witness :
    (halfOrder < curveOrder - 1 ∧ normalizeS (curveOrder - 1) = 1) ∧
    (1 ≤ halfOrder ∧ normalizeS 1 = 1) := by
  refine ⟨⟨by decide, ?_⟩, by decide, (normalizeS_low_s 1).2.1 (by decide)⟩
  have h := (normalizeS_low_s (curveOrder - 1)).1 (by decide)
  omega

/-- C7: with an initialized kit, `pair` on a URI without the `wc:` prefix
fails immediately with the invalid-URI error message and leaves the connection
status unchanged; when the transport call fails, the status falls back to
`connected` when active sessions exist and to `ready` otherwise; and on the
failure path the status is never left at `pairing` and never set to the
terminal error state. -/
theorem pair_invalid_uri_and_fallback (uri : String) (n : Nat) (msg : String)
    (succ : Bool) (st : WCUiState) :
    (¬"wc:".data.isPrefixOf uri.data → pair true uri n succ msg st =
      { st with errorMsg := some "Invalid WalletConnect URI" }) ∧
    ("wc:".data.isPrefixOf uri.data → pair true uri n false msg st =
      { status := if 0 < n then .connected else .ready,
        errorMsg := some msg }) ∧
    ("wc:".data.isPrefixOf uri.data →
      (pair true uri n false msg st).status ≠ .pairing ∧
      (pair true uri n false msg st).status ≠ .errorState) := by
  refine ⟨fun h => ?_, fun h => ?_, fun h => ?_⟩
  · simp [pair, h]
  · simp [pair, h]
  · have e : pair true uri n false msg st =
        { status := if 0 < n then .connected else .ready,
          errorMsg := some msg } := by simp [pair, h]
    rw [e]
    by_cases hn : 0 < n <;> simp [hn]

/-- C7 witness: a URI without the scheme prefix, and a transport failure with
one active session. -/
theorem pair_invalid_uri_and_fallback_witness :
    pair true "http://x" 1 true "boom" ⟨.connected, none⟩ =
      { status := .connected, errorMsg := some "Invalid WalletConnect URI" } ∧
    pair true "wc:abc" 1 false "boom" ⟨.connected, none⟩ =
      { status := .connected, errorMsg := some "boom" } := by
  refine ⟨(pair_invalid_uri_and_fallback "http://x" 1 "boom" true
      ⟨.connected, none⟩).1 (by decide), ?_⟩
  have h := (pair_invalid_uri_and_fallback "wc:abc" 1 "boom" false
      ⟨.connected, none⟩).2.1 (by decide)
  simpa using h

/-- C9: a credential whose public-key point is missing is rejected by both
signing operations before any collaborator is contacted or any ceremony is
performed: `handleSignWithPasskey` returns only the user-visible error
message, and `handleTransfer` performs no interaction and changes nothing but
the status message. -/
theorem signing_rejects_missing_public_key (cred : PasskeyCredential)
    (hq : cred.qx = none ∨ cred.qy = none) :
    (∀ request env, handleSignWithPasskey cred request env =
      { emptyTrace with txError := some "Passkey public key not available" }) ∧
    (∀ scw finalRecipient env st,
      (handleTransfer (some cred) scw finalRecipient env st).2 =
        emptyTransferTrace ∧
      ∃ msg, (handleTransfer (some cred) scw finalRecipient env st).1 =
        { st with transferStatus := msg }) := by
  have hguard : ¬(truthyStr cred.qx ∧ truthyStr cred.qy) := by
    rcases hq with h | h <;> simp [h, truthyStr]
  constructor
  · intro request env
    simp [handleSignWithPasskey, hguard]
  · intro scw finalRecipient env st
    unfold handleTransfer
    split
    · exact ⟨rfl, "✗ Missing required fields", rfl⟩
    · simp only [Option.getD_some, if_pos hguard]
      split
      · exact ⟨rfl, "✗ Invalid recipient address", rfl⟩
      · exact ⟨rfl,
          "✗ Passkey public key not available. Please regenerate passkey.",
          rfl⟩

/-- C9 witness: a concrete credential with no `qx`, concrete request and
environments. -/
theorem signing_rejects_missing_public_key_witness :
    (handleSignWithPasskey
        { id := "c", rawId := "r", publicKey := none, qx := none,
          qy := some "0xab" }
        { id := 1, topic := "t", method := "eth_sendTransaction",
          chainId := "eip155:8453",
          params := { fromAddr := none, toAddr := none, value := none,
                      data := none, gas := none, gasPrice := none },
          calls := none, batchId := none, timestamp := 0, peerMeta := none }
        { prepare := { success := true, errorMsg := none, challengeHash := "",
                       deadline := 0, calls := [], isBatch := false },
          assertion := none,
          facilitate := { success := true, txHash := some "0xdead",
                          errorMsg := none } }).facilitateCalled = false := by
  have h := (signing_rejects_missing_public_key
    { id := "c", rawId := "r", publicKey := none, qx := none,
      qy := some "0xab" } (Or.inl rfl)).1
    { id := 1, topic := "t", method := "eth_sendTransaction",
      chainId := "eip155:8453",
      params := { fromAddr := none, toAddr := none, value := none,
                  data := none, gas := none, gasPrice := none },
      calls := none, batchId := none, timestamp := 0, peerMeta := none }
    { prepare := { success := true, errorMsg := none, challengeHash := "",
                   deadline := 0, calls := [], isBatch := false },
      assertion := none,
      facilitate := { success := true, txHash := some "0xdead",
                      errorMsg := none } }
  rw [h]
  rfl

/-- A successful `padTo32` returns exactly 32 bytes (and requires the input to
be at most 32 bytes). -/
theorem padTo32_ok_length (b p : List Nat) (h : padTo32 b = .ok p) :
    p.length = 32 ∧ b.length ≤ 32 := by
  unfold padTo32 at h
  split at h
  · rename_i hle
    injection h with h'
    subst h'
    simp only [List.length_append, List.length_replicate]
    omega
  · cases h

/-- C3 (amended): on every accepted input both decoded components are padded
to exactly 32 bytes, and a leading zero byte is stripped exactly when the
component is longer than 32 bytes; components still longer than 32 bytes
after the strip are not truncated — `padTo32` (the `TypedArray.set` call)
fails on them, so they never reach the output. -/
theorem parseAsn1_strip_and_pad (bytes rP sP : List Nat)
    (h : parseAsn1Components bytes = .ok (rP, sP)) :
    rP.length = 32 ∧ sP.length = 32 ∧
    (∀ b : List Nat,
      (b.head? = some 0 ∧ 32 < b.length → stripLeadingZero b = b.tail) ∧
      (¬(b.head? = some 0 ∧ 32 < b.length) → stripLeadingZero b = b)) ∧
    (∀ b p : List Nat, padTo32 b = .ok p → b.length ≤ 32) := by
  have hlen : rP.length = 32 ∧ sP.length = 32 := by
    unfold parseAsn1Components at h
    split at h
    · cases h
    · dsimp only at h
      split at h
      · cases h
      · split at h
        · cases h
        · split at h
          · cases h
          · split at h
            · rename_i hr hs
              injection h with h'
              rw [Prod.mk.injEq] at h'
              obtain ⟨h1, h2⟩ := h'
              subst h1; subst h2
              exact ⟨(padTo32_ok_length _ _ hr).1, (padTo32_ok_length _ _ hs).1⟩
            · cases h
            · cases h
  refine ⟨hlen.1, hlen.2, fun b => ⟨fun hb => ?_, fun hb => ?_⟩,
    fun b p hp => (padTo32_ok_length b p hp).2⟩
  · simp [stripLeadingZero, hb]
  · simp only [stripLeadingZero, if_neg hb]

/-- C3 witness: a well-formed signature with one-byte components decodes to
two 32-byte padded components. -/
theorem parseAsn1_strip_and_pad_witness :
    ∃ rP sP, parseAsn1Components [0x30, 0x06, 0x02, 0x01, 0x05, 0x02, 0x01,
      0x07] = .ok (rP, sP) ∧ rP.length = 32 ∧ sP.length = 32 := by
  have h : parseAsn1Components [0x30, 0x06, 0x02, 0x01, 0x05, 0x02, 0x01,
      0x07] = .ok (List.replicate 31 0 ++ [5], List.replicate 31 0 ++ [7]) := by
    rfl
  have hs := parseAsn1_strip_and_pad _ _ _ h
  exact ⟨_, _, h, hs.1, hs.2.1⟩

/-- C3 counterexample: a 33-byte `r` INTEGER with no leading zero byte is not
truncated to 32 bytes — the decoder fails with the `TypedArray.set`
`RangeError` instead. -/
theorem parseAsn1_no_truncation_counterexample :
    parseAsn1Signature
      ([0x30, 0x26, 0x02, 0x21] ++ List.replicate 33 1 ++ [0x02, 0x01, 0x01]) =
      .error .rangeError := by rfl

/-- Lemma giving `findPointStart` in closed form: the scan succeeds exactly when the byte
at offset `length - 65` is the `0x04` marker (and the blob is at least 65
bytes long), and then returns that offset. -/
theorem findPointStart_eq (bytes : List Nat) :
    findPointStart bytes =
      if 65 ≤ bytes.length ∧ byteAt bytes (bytes.length - 65) = some 4 then
        some (bytes.length - 65)
      else none := by
  unfold findPointStart
  rcases Nat.lt_or_ge bytes.length 65 with h | h
  · have h0 : bytes.length - 64 = 0 := by omega
    rw [h0]
    have hneg : ¬(65 ≤ bytes.length ∧
        byteAt bytes (bytes.length - 65) = some 4) := by
      rintro ⟨h1, _⟩; omega
    rw [if_neg hneg]
    rfl
  · have h1 : bytes.length - 64 = (bytes.length - 65) + 1 := by omega
    rw [h1, List.range_succ, List.find?_append]
    have hnone : (List.range (bytes.length - 65)).find?
        (fun i => decide (byteAt bytes i = some 4 ∧ bytes.length - i = 65)) =
          none := by
      rw [List.find?_eq_none]
      intro i hi
      rw [List.mem_range] at hi
      simp only [decide_eq_true_eq, not_and]
      intro _
      omega
    rw [hnone, Option.none_or]
    have harith : bytes.length - (bytes.length - 65) = 65 := Nat.sub_sub_self h
    by_cases hb : byteAt bytes (bytes.length - 65) = some 4
    · rw [if_pos ⟨h, hb⟩]
      simp [List.find?_cons, hb, harith]
    · have hneg : ¬(65 ≤ bytes.length ∧
          byteAt bytes (bytes.length - 65) = some 4) := by
        rintro ⟨_, hx⟩
        exact hb hx
      rw [if_neg hneg]
      simp [List.find?_cons, hb]

/-- C4: point extraction fails (with the too-short error) exactly on blobs
shorter than 65 bytes; the scan accepts an `0x04` marker exactly at offset
`length - 65`; a blob ending in `0x04 ‖ x ‖ y` with 32-byte `x`, `y` decodes
to exactly those coordinate bytes; and a marker-less blob ending in `x ‖ y`
recovers the same bytes through the last-64-bytes fallback. -/
theorem extractPoint_spec :
    (∀ bytes : List Nat, bytes.length < 65 →
      extractPublicKeyFromSpki bytes = .error .spkiTooShort) ∧
    (∀ bytes : List Nat, 65 ≤ bytes.length →
      ∃ qx qy, extractPublicKeyFromSpki bytes = .ok (qx, qy)) ∧
    (∀ (bytes : List Nat) (i : Nat), 65 ≤ bytes.length →
      (findPointStart bytes = some i ↔
        i = bytes.length - 65 ∧ byteAt bytes i = some 4)) ∧
    (∀ header x y : List Nat, x.length = 32 → y.length = 32 →
      extractPublicKeyFromSpki (header ++ 4 :: (x ++ y)) =
        .ok (hexOfBytes x, hexOfBytes y)) ∧
    (∀ pre x y : List Nat, x.length = 32 → y.length = 32 →
      byteAt (pre ++ (x ++ y)) ((pre ++ (x ++ y)).length - 65) ≠ some 4 →
      65 ≤ (pre ++ (x ++ y)).length →
      extractPublicKeyFromSpki (pre ++ (x ++ y)) =
        .ok (hexOfBytes x, hexOfBytes y)) := by
  refine ⟨fun bytes h => ?_, fun bytes h => ?_, fun bytes i h => ?_,
    fun header x y hx hy => ?_, fun pre x y hx hy hb h => ?_⟩
  · unfold extractPublicKeyFromSpki
    rw [if_pos h]
  · unfold extractPublicKeyFromSpki
    rw [if_neg (by omega)]
    rcases hfp : findPointStart bytes with _ | p
    · exact ⟨_, _, rfl⟩
    · exact ⟨_, _, rfl⟩
  · rw [findPointStart_eq]
    constructor
    · intro he
      split at he
      · rename_i hc
        injection he with he'
        exact ⟨he'.symm, he' ▸ hc.2⟩
      · cases he
    · rintro ⟨hi, hbyte⟩
      subst hi
      rw [if_pos ⟨h, hbyte⟩]
  · have hlen : (header ++ 4 :: (x ++ y)).length = header.length + 65 := by
      simp [hx, hy]
    have hmark : byteAt (header ++ 4 :: (x ++ y))
        ((header ++ 4 :: (x ++ y)).length - 65) = some 4 := by
      rw [hlen]
      simp only [byteAt, Nat.add_sub_cancel]
      rw [List.getElem?_append_right (by omega)]
      simp
    have hfp : findPointStart (header ++ 4 :: (x ++ y)) =
        some ((header ++ 4 :: (x ++ y)).length - 65) := by
      rw [findPointStart_eq, if_pos ⟨by omega, hmark⟩]
    unfold extractPublicKeyFromSpki
    rw [if_neg (by omega), hfp, hlen, Nat.add_sub_cancel]
    dsimp only
    have hdrop1 : sliceList (header ++ 4 :: (x ++ y))
        (header.length + 1) 32 = x := by
      simp only [sliceList]
      rw [List.drop_append_eq_append_drop]
      rw [List.drop_of_length_le (by omega), List.nil_append,
        show header.length + 1 - header.length = 1 from by omega]
      simp only [List.drop_succ_cons, List.drop_zero]
      rw [List.take_append_of_le_length (by omega), ← hx, List.take_length]
    have hdrop2 : sliceList (header ++ 4 :: (x ++ y))
        (header.length + 33) 32 = y := by
      simp only [sliceList]
      rw [List.drop_append_eq_append_drop]
      rw [List.drop_of_length_le (by omega), List.nil_append,
        show header.length + 33 - header.length = 33 from by omega]
      simp only [List.drop_succ_cons]
      rw [List.drop_append_eq_append_drop, List.drop_of_length_le (by omega),
        List.nil_append, show 32 - x.length = 0 from by omega,
        List.drop_zero, ← hy, List.take_length]
    rw [hdrop1, hdrop2]
  · have hlen : (pre ++ (x ++ y)).length = pre.length + 64 := by
      simp [hx, hy]
    have hneg : ¬(65 ≤ (pre ++ (x ++ y)).length ∧
        byteAt (pre ++ (x ++ y)) ((pre ++ (x ++ y)).length - 65) = some 4) := by
      rintro ⟨_, hc⟩
      exact hb hc
    have hfp : findPointStart (pre ++ (x ++ y)) = none := by
      rw [findPointStart_eq, if_neg hneg]
    unfold extractPublicKeyFromSpki
    rw [if_neg (by omega), hfp]
    dsimp only
    have hdrop1 : sliceList (pre ++ (x ++ y))
        ((pre ++ (x ++ y)).length - 64) 32 = x := by
      simp only [sliceList, hlen, Nat.add_sub_cancel]
      rw [List.drop_append_eq_append_drop, List.drop_of_length_le (by omega),
        List.nil_append, show pre.length - pre.length = 0 from by omega,
        List.drop_zero, List.take_append_of_le_length (by omega), ← hx,
        List.take_length]
    have hdrop2 : sliceList (pre ++ (x ++ y))
        ((pre ++ (x ++ y)).length - 32) 32 = y := by
      simp only [sliceList, hlen]
      rw [show pre.length + 64 - 32 = pre.length + 32 from by omega,
        List.drop_append_eq_append_drop, List.drop_of_length_le (by omega),
        List.nil_append, show pre.length + 32 - pre.length = 32 from by omega,
        List.drop_append_eq_append_drop, List.drop_of_length_le (by omega),
        List.nil_append, show 32 - x.length = 0 from by omega,
        List.drop_zero, ← hy, List.take_length]
    rw [hdrop1, hdrop2]

/-- C4 witness: a bare 65-byte uncompressed-point blob, and a marker-less
64-byte-suffix blob, both recover the exact coordinate bytes. -/
theorem extractPoint_spec_witness :
    extractPublicKeyFromSpki
        ([] ++ 4 :: (List.replicate 32 9 ++ List.replicate 32 7)) =
      .ok (hexOfBytes (List.replicate 32 9),
           hexOfBytes (List.replicate 32 7)) ∧
    extractPublicKeyFromSpki
        ([1, 2] ++ (List.replicate 32 9 ++ List.replicate 32 7)) =
      .ok (hexOfBytes (List.replicate 32 9),
           hexOfBytes (List.replicate 32 7)) := by
  refine ⟨extractPoint_spec.2.2.2.1 [] _ _ (by simp) (by simp), ?_⟩
  exact extractPoint_spec.2.2.2.2 [1, 2] _ _ (by simp) (by simp)
    (by decide) (by decide)

/-- C6: whenever the SEQUENCE tag or either INTEGER tag is missing, the DER
decoder fails with one of the three `MalformedSignature` errors, and the
signing flow run on such a signature never contacts the facilitator and never
builds an authorization payload. -/
theorem derTagMissing_errors (bytes : List Nat) (h : derTagMissing bytes) :
    (∃ e, parseAsn1Signature bytes = .error e ∧
      (e = .expectedSequence ∨ e = .expectedIntR ∨ e = .expectedIntS)) ∧
    (∀ (cred : PasskeyCredential) (req : SessionRequest) (env : SignEnv)
        (a : AssertionData), env.assertion = some a → a.signature = bytes →
      (handleSignWithPasskey cred req env).facilitateCalled = false ∧
      (handleSignWithPasskey cred req env).authSent = none) := by
  have h1 : ∃ e, parseAsn1Components bytes = .error e ∧
      (e = .expectedSequence ∨ e = .expectedIntR ∨ e = .expectedIntS) := by
    by_cases h0 : byteAt bytes 0 ≠ some 0x30
    · refine ⟨.expectedSequence, ?_, Or.inl rfl⟩
      unfold parseAsn1Components
      rw [if_pos h0]
    · have hIntR : byteAt bytes (rTagOff bytes) ≠ some 0x02 →
          parseAsn1Components bytes = .error .expectedIntR := by
        intro hr
        unfold parseAsn1Components
        rw [if_neg h0]
        dsimp only
        rw [if_pos hr]
      rcases h with hseq | hr | hnone | ⟨rLen, hrl, hs⟩
      · exact absurd hseq h0
      · exact ⟨.expectedIntR, hIntR hr, Or.inr (Or.inl rfl)⟩
      · by_cases hr2 : byteAt bytes (rTagOff bytes) ≠ some 0x02
        · exact ⟨.expectedIntR, hIntR hr2, Or.inr (Or.inl rfl)⟩
        · refine ⟨.expectedIntS, ?_, Or.inr (Or.inr rfl)⟩
          unfold parseAsn1Components
          rw [if_neg h0]
          dsimp only
          rw [if_neg hr2, hnone]
      · by_cases hr2 : byteAt bytes (rTagOff bytes) ≠ some 0x02
        · exact ⟨.expectedIntR, hIntR hr2, Or.inr (Or.inl rfl)⟩
        · refine ⟨.expectedIntS, ?_, Or.inr (Or.inr rfl)⟩
          unfold parseAsn1Components
          rw [if_neg h0]
          dsimp only
          rw [if_neg hr2, hrl]
          dsimp only
          rw [if_pos hs]
  obtain ⟨e, he, hmem⟩ := h1
  have hsig1 : parseAsn1Signature bytes = .error e := by
    unfold parseAsn1Signature
    rw [he]
    rfl
  refine ⟨⟨e, hsig1, hmem⟩, fun cred req env a ha hsg => ?_⟩
  have hci : parseAsn1Signature a.signature = .error e := by rw [hsg, hsig1]
  unfold handleSignWithPasskey
  dsimp only
  split
  · exact ⟨rfl, rfl⟩
  · split
    · exact ⟨rfl, rfl⟩
    · rw [ha]
      dsimp only
      rw [hci]
      exact ⟨rfl, rfl⟩

/-- C6 witness: a blob whose first byte is not the SEQUENCE tag, fed through
the signing flow as the assertion signature. -/
theorem derTagMissing_errors_witness :
    (handleSignWithPasskey
      { id := "c", rawId := "r", publicKey := none, qx := some "0x1",
        qy := some "0x2" }
      { id := 7, topic := "t", method := "eth_sendTransaction",
        chainId := "eip155:8453",
        params := { fromAddr := none, toAddr := none, value := none,
                    data := none, gas := none, gasPrice := none },
        calls := none, batchId := none, timestamp := 0, peerMeta := none }
      { prepare := { success := true, errorMsg := none, challengeHash := "0x",
                     deadline := 0, calls := [], isBatch := false },
        assertion := some { signature := [0x05], authenticatorData := [],
                            clientDataJSON := "{}" },
        facilitate := { success := true, txHash := some "0xbeef",
                        errorMsg := none } }).facilitateCalled = false :=
  ((derTagMissing_errors [0x05] (Or.inl (by decide))).2
    { id := "c", rawId := "r", publicKey := none, qx := some "0x1",
      qy := some "0x2" }
    { id := 7, topic := "t", method := "eth_sendTransaction",
      chainId := "eip155:8453",
      params := { fromAddr := none, toAddr := none, value := none,
                  data := none, gas := none, gasPrice := none },
      calls := none, batchId := none, timestamp := 0, peerMeta := none }
    { prepare := { success := true, errorMsg := none, challengeHash := "0x",
                   deadline := 0, calls := [], isBatch := false },
      assertion := some { signature := [0x05], authenticatorData := [],
                          clientDataJSON := "{}" },
      facilitate := { success := true, txHash := some "0xbeef",
                      errorMsg := none } }
    { signature := [0x05], authenticatorData := [], clientDataJSON := "{}" }
    rfl rfl).1

/-- Updating an existing key via the map branch of `mapSet` makes the key map
to the new value. -/
theorem mapGet_map_update (m : List (String × BatchCallStatus)) (k : String)
    (v : BatchCallStatus) (h : (m.find? (fun p => p.1 == k)).isSome) :
    mapGet (m.map (fun p => if p.1 == k then (k, v) else p)) k = some v := by
  induction m with
  | nil => simp at h
  | cons hd tl ih =>
    by_cases hh : (hd.1 == k) = true
    · simp only [List.map_cons, if_pos hh]
      unfold mapGet
      rw [@List.find?_cons_of_pos _ (fun p => p.1 == k) ((k, v)) _ (by simp)]
      rfl
    · have h' : (tl.find? (fun p => p.1 == k)).isSome := by
        rwa [@List.find?_cons_of_neg _ (fun p => p.1 == k) hd tl hh] at h
      simp only [List.map_cons, if_neg hh]
      unfold mapGet
      rw [@List.find?_cons_of_neg _ (fun p => p.1 == k) hd _ hh]
      exact ih h'

/-- Appending a fresh entry via the append branch of `mapSet` makes the key
map to the new value. -/
theorem mapGet_append_new (m : List (String × BatchCallStatus)) (k : String)
    (v : BatchCallStatus) (h : m.find? (fun p => p.1 == k) = none) :
    mapGet (m ++ [(k, v)]) k = some v := by
  induction m with
  | nil =>
    unfold mapGet
    rw [List.nil_append,
      @List.find?_cons_of_pos _ (fun p => p.1 == k) ((k, v)) _ (by simp)]
    rfl
  | cons hd tl ih =>
    rw [List.find?_eq_none] at h
    have hhd : ¬(hd.1 == k) = true := h hd (by simp)
    have htl : tl.find? (fun p => p.1 == k) = none :=
      List.find?_eq_none.mpr (fun x hx => h x (by simp [hx]))
    unfold mapGet
    rw [List.cons_append,
      @List.find?_cons_of_neg _ (fun p => p.1 == k) hd _ hhd]
    exact ih htl

/-- JS `Map.set` then `Map.get` at the same key yields the stored value. -/
theorem mapGet_mapSet_self (m : List (String × BatchCallStatus)) (k : String)
    (v : BatchCallStatus) : mapGet (mapSet m k v) k = some v := by
  unfold mapSet
  by_cases h : (m.find? (fun p => p.1 == k)).isSome
  · rw [if_pos h]
    exact mapGet_map_update m k v h
  · rw [if_neg h]
    rw [Bool.not_eq_true] at h
    exact mapGet_append_new m k v (by
      cases hf : List.find? (fun p => p.1 == k) m with
      | none => rfl
      | some w => rw [hf] at h; exact absurd h (by simp))

/-- C1 (amended): the `wallet_getCallsStatus` reply reflects the stored
`BatchCallStatus` record's status code: an unknown batch id gets the
structured RPC error 5730 (not a thrown exception); a batch registered by
`wallet_sendCalls` polls as status 100; and after the success update
(status 200 + txHash) the poll returns status 200 — but the reply is built
from version/id/chainId/status/atomic/receipts only, so the stored txHash is
not part of it. -/
theorem getCallsStatus_reflects_record
    (m : List (String × BatchCallStatus)) (bid : String) :
    (mapGet m bid = none →
      handleGetCallsStatus m bid = .rpcError 5730 "Unknown batch id") ∧
    (∀ bs, mapGet m bid = some bs → handleGetCallsStatus m bid =
      .ok { version := "2.0.0", id := bs.batchId, chainId := bs.chainId,
            status := bs.status, atomic := bs.atomic,
            receipts := bs.receipts }) ∧
    (∀ st reqId topic ecid params now rand peer,
      handleGetCallsStatus
        ((handleWalletSendCalls st reqId topic ecid params now rand
          peer).1).batchStatuses (mintBatchId now rand) =
      .ok { version := "2.0.0", id := mintBatchId now rand,
            chainId := jsOrStr params.chainId ecid, status := 100,
            atomic := true, receipts := none }) ∧
    (∀ bs h, mapGet m bid = some bs →
      handleGetCallsStatus
        (updateBatchStatus m bid { status := some 200, txHash := some h })
        bid =
      .ok { version := "2.0.0", id := bs.batchId, chainId := bs.chainId,
            status := 200, atomic := bs.atomic,
            receipts := bs.receipts }) := by
  refine ⟨fun hnone => ?_, fun bs hbs => ?_, fun st reqId topic ecid params
    now rand peer => ?_, fun bs h hbs => ?_⟩
  · unfold handleGetCallsStatus
    rw [hnone]
  · unfold handleGetCallsStatus
    rw [hbs]
  · unfold handleWalletSendCalls
    dsimp only
    unfold handleGetCallsStatus
    rw [mapGet_mapSet_self]
  · unfold updateBatchStatus
    rw [hbs]
    unfold handleGetCallsStatus
    rw [mapGet_mapSet_self]
    rfl

/-- C1 witness: the unknown-id error on an empty map, and the pending poll
for a freshly registered batch. -/
theorem getCallsStatus_reflects_record_witness :
    handleGetCallsStatus [] "0x00" = .rpcError 5730 "Unknown batch id" ∧
    handleGetCallsStatus
      ((handleWalletSendCalls ⟨[], []⟩ 1 "t" "eip155:8453"
        ⟨none, none, some []⟩ 0 "" none).1).batchStatuses
      (mintBatchId 0 "") =
    .ok { version := "2.0.0", id := mintBatchId 0 "",
          chainId := "eip155:8453", status := 100, atomic := true,
          receipts := none } := by
  refine ⟨(getCallsStatus_reflects_record [] "0x00").1 rfl, ?_⟩
  exact (getCallsStatus_reflects_record [] "x").2.2.1 ⟨[], []⟩ 1 "t"
    "eip155:8453" ⟨none, none, some []⟩ 0 "" none

/-- C1 counterexample: after a successful facilitation sets the record to 200
with the facilitator's txHash, the poll reply carries the success code but
not the transaction hash — the stored record holds `txHash = some "0xabc"`,
yet the reply (whose only fields are version, id, chainId, status, atomic and
the never-populated receipts) is identical to the reply produced when no
txHash was stored at all. -/
theorem getCallsStatus_omits_txHash_counterexample :
    (mapGet
      (updateBatchStatus
        ((handleWalletSendCalls ⟨[], []⟩ 1 "t" "eip155:8453"
          ⟨none, none, some []⟩ 0 "" none).1).batchStatuses
        (mintBatchId 0 "") { status := some 200, txHash := some "0xabc" })
      (mintBatchId 0 "")).map (fun bs => bs.txHash) = some (some "0xabc") ∧
    handleGetCallsStatus
      (updateBatchStatus
        ((handleWalletSendCalls ⟨[], []⟩ 1 "t" "eip155:8453"
          ⟨none, none, some []⟩ 0 "" none).1).batchStatuses
        (mintBatchId 0 "") { status := some 200, txHash := some "0xabc" })
      (mintBatchId 0 "") =
    .ok { version := "2.0.0", id := mintBatchId 0 "",
          chainId := "eip155:8453", status := 200, atomic := true,
          receipts := none } ∧
    handleGetCallsStatus
      (updateBatchStatus
        ((handleWalletSendCalls ⟨[], []⟩ 1 "t" "eip155:8453"
          ⟨none, none, some []⟩ 0 "" none).1).batchStatuses
        (mintBatchId 0 "") { status := some 200, txHash := some "0xabc" })
      (mintBatchId 0 "") =
    handleGetCallsStatus
      (updateBatchStatus
        ((handleWalletSendCalls ⟨[], []⟩ 1 "t" "eip155:8453"
          ⟨none, none, some []⟩ 0 "" none).1).batchStatuses
        (mintBatchId 0 "") { status := some 200, txHash := none })
      (mintBatchId 0 "") := by
  refine ⟨?_, ?_, ?_⟩ <;> rfl

/-- Every character produced by the digit table lookup is a hex digit. -/
theorem hexDigit_mem (n : Nat) : hexDigit n ∈ hexDigits := by
  unfold hexDigit
  rcases Nat.lt_or_ge n hexDigits.length with h | h
  · rw [List.getD_eq_getElem _ _ h]
    exact List.getElem_mem h
  · rw [List.getD_eq_default _ _ h]
    decide

/-- Every character produced by the hex digit accumulator is a hex digit. -/
theorem natToHexAux_mem (fuel : Nat) : ∀ n, ∀ c ∈ natToHexAux fuel n,
    c ∈ hexDigits := by
  induction fuel with
  | zero => intro n c hc; simp [natToHexAux] at hc
  | succ f ih =>
    intro n c hc
    unfold natToHexAux at hc
    split at hc
    · simp at hc
    · rw [List.mem_append] at hc
      rcases hc with hc | hc
      · exact ih _ c hc
      · rw [List.mem_singleton] at hc
        subst hc
        exact hexDigit_mem _

/-- Every character of `natToHex n` is a hex digit. -/
theorem natToHex_mem (n : Nat) : ∀ c ∈ natToHex n, c ∈ hexDigits := by
  intro c hc
  unfold natToHex at hc
  split at hc
  · rw [List.mem_singleton] at hc
    subst hc
    decide
  · exact natToHexAux_mem n n c hc

/-- The minted batch id is a `0x`-prefixed hex string (given that the random
fraction digits are hex digits, which `Math.random().toString(16)`
guarantees). -/
theorem mintBatchId_hex (now : Nat) (rand : String)
    (hr : ∀ c ∈ rand.data, c ∈ hexDigits) :
    (mintBatchId now rand).data.take 2 = ['0', 'x'] ∧
    ∀ c ∈ (mintBatchId now rand).data.drop 2, c ∈ hexDigits := by
  refine ⟨rfl, ?_⟩
  intro c hc
  have hc' : c ∈ padStartZeros 16 (natToHex now) ++
      padStartZeros 48 rand.data := hc
  rw [List.mem_append] at hc'
  rcases hc' with hc' | hc' <;>
    · unfold padStartZeros at hc'
      rw [List.mem_append] at hc'
      rcases hc' with hc' | hc'
      · rw [List.eq_of_mem_replicate hc']
        decide
      · first
        | exact natToHex_mem now c hc'
        | exact hr c hc'

/-- C8 (amended): `wallet_sendCalls` normalizes the call list to
`{to, value, data}`, mints a batch id that is a deterministic `0x`-prefixed
hex string derived from the current time and the random sample (no check
against existing keys is performed, so distinctness holds only when the
time/randomness pair is fresh), registers a pending (100, atomic) status
record under it, enqueues a `SessionRequest` carrying it, and the RPC reply —
computed by the same function invocation from the inbound request alone,
independent of any approval, signing or facilitation input — is exactly
`{ id: batchId }`. -/
theorem sendCalls_immediate_reply (st : BridgeState) (reqId : Nat)
    (topic ecid : String) (params : SendCallsParams) (now : Nat)
    (rand : String) (peer : Option PeerMeta)
    (hr : ∀ c ∈ rand.data, c ∈ hexDigits) :
    (handleWalletSendCalls st reqId topic ecid params now rand peer).2 =
      { id := mintBatchId now rand } ∧
    mapGet (handleWalletSendCalls st reqId topic ecid params now rand
        peer).1.batchStatuses (mintBatchId now rand) =
      some { batchId := mintBatchId now rand,
             chainId := jsOrStr params.chainId ecid, status := 100,
             atomic := true, txHash := none, receipts := none } ∧
    (handleWalletSendCalls st reqId topic ecid params now rand
        peer).1.sessionRequests = st.sessionRequests ++
      [{ id := reqId, topic := topic, method := "wallet_sendCalls",
         chainId := jsOrStr params.chainId ecid,
         params := { fromAddr := params.fromAddr, toAddr := none,
                     value := none, data := none, gas := none,
                     gasPrice := none },
         calls := some ((params.calls.getD []).map (fun c =>
           { fromAddr := none, toAddr := c.toAddr, value := c.value,
             data := c.data, gas := none, gasPrice := none })),
         batchId := some (mintBatchId now rand), timestamp := now,
         peerMeta := peer }] ∧
    (mintBatchId now rand).data.take 2 = ['0', 'x'] ∧
    (∀ c ∈ (mintBatchId now rand).data.drop 2, c ∈ hexDigits) := by
  refine ⟨rfl, ?_, rfl, mintBatchId_hex now rand hr⟩
  unfold handleWalletSendCalls
  dsimp only
  exact mapGet_mapSet_self _ _ _

/-- C8 witness: a concrete `wallet_sendCalls` with two calls replies with the
minted batch id immediately. -/
theorem sendCalls_immediate_reply_witness :
    (handleWalletSendCalls ⟨[], []⟩ 9 "top" "eip155:8453"
      ⟨some "0xme", none,
       some [{ fromAddr := none, toAddr := some "0xa", value := some "0x1",
               data := some "0x", gas := none, gasPrice := none },
             { fromAddr := none, toAddr := some "0xb", value := none,
               data := none, gas := none, gasPrice := none }]⟩
      0 "ab" none).2 = { id := mintBatchId 0 "ab" } :=
  (sendCalls_immediate_reply ⟨[], []⟩ 9 "top" "eip155:8453"
    ⟨some "0xme", none,
     some [{ fromAddr := none, toAddr := some "0xa", value := some "0x1",
             data := some "0x", gas := none, gasPrice := none },
           { fromAddr := none, toAddr := some "0xb", value := none,
             data := none, gas := none, gasPrice := none }]⟩
    0 "ab" none (by decide)).1

/-- C8 counterexample: batch-id minting performs no freshness check — two
`wallet_sendCalls` arriving with the same clock reading and the same random
sample mint the same id, so the second minted id is not distinct from the
existing `BatchCallStatus` keys. -/
theorem sendCalls_batchId_not_fresh_counterexample :
    (handleWalletSendCalls
      (handleWalletSendCalls ⟨[], []⟩ 1 "t" "eip155:8453"
        ⟨none, none, some []⟩ 0 "" none).1
      2 "t" "eip155:8453" ⟨none, none, some []⟩ 0 "" none).2.id =
      mintBatchId 0 "" ∧
    (mapGet (handleWalletSendCalls ⟨[], []⟩ 1 "t" "eip155:8453"
      ⟨none, none, some []⟩ 0 "" none).1.batchStatuses
      (mintBatchId 0 "")).isSome = true := by
  exact ⟨rfl, rfl⟩

/-- Lemma: `indexOfAux` returns `-1` exactly when the pattern occurs at no offset of
the remaining string. -/
theorem indexOfAux_neg_iff (pat : List Char) : ∀ (s : List Char) (i : Nat),
    indexOfAux s pat i = -1 ↔ ∀ k, ¬pat.isPrefixOf (s.drop k) := by
  intro s
  induction s with
  | nil =>
    intro i
    unfold indexOfAux
    split
    · rename_i hp
      subst hp
      constructor
      · intro h
        omega
      · intro h
        exact absurd rfl (h 0)
    · rename_i hp
      constructor
      · intro _ k
        rw [List.drop_nil]
        cases pat with
        | nil => exact absurd rfl hp
        | cons c t => simp [List.isPrefixOf]
      · intro _
        rfl
  | cons c t ih =>
    intro i
    unfold indexOfAux
    split
    · rename_i hp
      constructor
      · intro h
        omega
      · intro h
        exact absurd hp (by simpa using h 0)
    · rename_i hp
      rw [ih (i + 1)]
      constructor
      · intro h k
        cases k with
        | zero => simpa using hp
        | succ j =>
          rw [List.drop_succ_cons]
          exact h j
      · intro h j
        have hk := h (j + 1)
        rwa [List.drop_succ_cons] at hk

/-- When `indexOfAux` returns a non-negative index, the pattern occurs there. -/
theorem indexOfAux_found (pat : List Char) : ∀ (s : List Char) (i k : Nat),
    indexOfAux s pat i = (k : Int) →
    i ≤ k ∧ pat.isPrefixOf (s.drop (k - i)) := by
  intro s
  induction s with
  | nil =>
    intro i k h
    unfold indexOfAux at h
    split at h
    · rename_i hp
      have hik : i = k := by omega
      subst hik
      subst hp
      rw [Nat.sub_self]
      exact ⟨Nat.le_refl i, rfl⟩
    · exact absurd h (by omega)
  | cons c t ih =>
    intro i k h
    unfold indexOfAux at h
    split at h
    · rename_i hp
      have hik : i = k := by omega
      subst hik
      rw [Nat.sub_self]
      exact ⟨Nat.le_refl i, hp⟩
    · obtain ⟨h1, h2⟩ := ih (i + 1) k h
      refine ⟨by omega, ?_⟩
      have hs : k - i = (k - (i + 1)) + 1 := by omega
      rw [hs, List.drop_succ_cons]
      exact h2

/-- C2 (amended): authorization packaging records `challengeIndex` and
`typeIndex` as the `indexOf` offsets of the literal marker substrings inside
the clientDataJSON text — the offset of the first occurrence when the marker
is present, and `-1` when it is absent.  No check is performed on those
offsets: packaging is total and never fails (the counterexample shows an
absent-marker run reaching the facilitator with `challengeIndex = "-1"`). -/
theorem packageAuth_indexOf (r s : Int) (ad : List Nat) (cd : String) :
    (packageAuth r s ad cd).challengeIndex =
      toString (strIndexOf cd challengeMarker) ∧
    (packageAuth r s ad cd).typeIndex =
      toString (strIndexOf cd typeMarker) ∧
    (∀ pat : String, strIndexOf cd pat = -1 ↔
      ∀ k, ¬pat.data.isPrefixOf (cd.data.drop k)) ∧
    (∀ (pat : String) (k : Nat), strIndexOf cd pat = (k : Int) →
      pat.data.isPrefixOf (cd.data.drop k)) := by
  refine ⟨rfl, rfl, fun pat => indexOfAux_neg_iff pat.data cd.data 0,
    fun pat k h => ?_⟩
  have hf := indexOfAux_found pat.data cd.data 0 k h
  simpa using hf.2

/-- C2 witness: in a clientDataJSON containing the `"type"` marker at offset
2, `indexOf` locates it there. -/
theorem packageAuth_indexOf_witness :
    typeMarker.data.isPrefixOf ((String.data "ab\"type\"x").drop 2) = true :=
  (packageAuth_indexOf 0 0 [] "ab\"type\"x").2.2.2 typeMarker 2 (by rfl)

/-- C2 counterexample: a clientDataJSON that contains neither marker does not
make the operation fail — the signing flow proceeds all the way to the
facilitator with no error and with `challengeIndex` and `typeIndex` recorded
as `"-1"`. -/
theorem packageAuth_no_failure_counterexample :
    (handleSignWithPasskey
      { id := "c", rawId := "r", publicKey := none, qx := some "0x1",
        qy := some "0x2" }
      { id := 3, topic := "t", method := "eth_sendTransaction",
        chainId := "eip155:8453",
        params := { fromAddr := none, toAddr := none, value := none,
                    data := none, gas := none, gasPrice := none },
        calls := none, batchId := none, timestamp := 0, peerMeta := none }
      { prepare := { success := true, errorMsg := none, challengeHash := "0x",
                     deadline := 0, calls := [], isBatch := false },
        assertion := some
          { signature := [0x30, 0x06, 0x02, 0x01, 0x01, 0x02, 0x01, 0x01],
            authenticatorData := [], clientDataJSON := "abc" },
        facilitate := { success := true, txHash := some "0xbeef",
                        errorMsg := none } }).facilitateCalled = true ∧
    (handleSignWithPasskey
      { id := "c", rawId := "r", publicKey := none, qx := some "0x1",
        qy := some "0x2" }
      { id := 3, topic := "t", method := "eth_sendTransaction",
        chainId := "eip155:8453",
        params := { fromAddr := none, toAddr := none, value := none,
                    data := none, gas := none, gasPrice := none },
        calls := none, batchId := none, timestamp := 0, peerMeta := none }
      { prepare := { success := true, errorMsg := none, challengeHash := "0x",
                     deadline := 0, calls := [], isBatch := false },
        assertion := some
          { signature := [0x30, 0x06, 0x02, 0x01, 0x01, 0x02, 0x01, 0x01],
            authenticatorData := [], clientDataJSON := "abc" },
        facilitate := { success := true, txHash := some "0xbeef",
                        errorMsg := none } }).txError = none ∧
    ((handleSignWithPasskey
      { id := "c", rawId := "r", publicKey := none, qx := some "0x1",
        qy := some "0x2" }
      { id := 3, topic := "t", method := "eth_sendTransaction",
        chainId := "eip155:8453",
        params := { fromAddr := none, toAddr := none, value := none,
                    data := none, gas := none, gasPrice := none },
        calls := none, batchId := none, timestamp := 0, peerMeta := none }
      { prepare := { success := true, errorMsg := none, challengeHash := "0x",
                     deadline := 0, calls := [], isBatch := false },
        assertion := some
          { signature := [0x30, 0x06, 0x02, 0x01, 0x01, 0x02, 0x01, 0x01],
            authenticatorData := [], clientDataJSON := "abc" },
        facilitate := { success := true, txHash := some "0xbeef",
                        errorMsg := none } }).authSent.map
      (fun a => (a.challengeIndex, a.typeIndex))) = some ("-1", "-1") := by
  exact ⟨rfl, rfl, rfl⟩

/-- No alphabet character (nor the out-of-range default) is the padding
character. -/
theorem b64Char_ne_eq (n : Nat) : b64Char n ≠ '=' := by
  unfold b64Char
  rcases Nat.lt_or_ge n b64Alphabet.length with h | h
  · rw [List.getD_eq_getElem _ _ h]
    have hall : ∀ m, (hm : m < b64Alphabet.length) →
        b64Alphabet[m] ≠ '=' := by decide
    exact hall n h
  · rw [List.getD_eq_default _ _ h]
    decide

/-- The URL-safe substitution leaves no padding character either. -/
theorem stdToUrl_b64Char_ne_eq (n : Nat) : stdToUrl (b64Char n) ≠ '=' := by
  unfold stdToUrl
  split
  · decide
  · split
    · decide
    · exact b64Char_ne_eq n

/-- The URL-safe substitution round-trips on every alphabet character. -/
theorem urlToStd_stdToUrl_b64Char (n : Nat) :
    urlToStd (stdToUrl (b64Char n)) = b64Char n := by
  unfold b64Char
  rcases Nat.lt_or_ge n b64Alphabet.length with h | h
  · rw [List.getD_eq_getElem _ _ h]
    have hall : ∀ m, (hm : m < b64Alphabet.length) →
        urlToStd (stdToUrl b64Alphabet[m]) = b64Alphabet[m] := by decide
    exact hall n h
  · rw [List.getD_eq_default _ _ h]
    decide

/-- Alphabet lookup inverts encoding for every 6-bit value. -/
theorem b64Index_b64Char (n : Nat) (h : n < 64) : b64Index (b64Char n) = n :=
  (by decide : ∀ m, m < 64 → b64Index (b64Char m) = m) n h

/-- Re-padding after a full 4-character group touches only the tail. -/
theorem repad_append_four (l4 t : List Char) (h : l4.length = 4) :
    repad (l4 ++ t) = l4 ++ repad t := by
  unfold repad
  rw [List.append_assoc, List.length_append, h]
  have hmod : (4 - (4 + t.length) % 4) % 4 = (4 - t.length % 4) % 4 := by
    omega
  rw [hmod]

/-- Filtering the padding character keeps a substituted alphabet character. -/
theorem filter_ne_pad_cons_b64 (k : Nat) (t : List Char) :
    (stdToUrl (b64Char k) :: t).filter (fun c => c ≠ '=') =
      stdToUrl (b64Char k) :: t.filter (fun c => c ≠ '=') := by
  rw [List.filter_cons, if_pos (decide_eq_true (stdToUrl_b64Char_ne_eq k))]

/-- Filtering the padding character drops a leading `=`. -/
theorem filter_ne_pad_cons_pad (t : List Char) :
    ('=' :: t).filter (fun c => c ≠ '=') = t.filter (fun c => c ≠ '=') := by
  rw [List.filter_cons, if_neg (by decide)]

/-- Lemma: `bufferToBase64url` on a 3-byte group: four substituted alphabet
characters (none filtered) followed by the encoding of the rest. -/
theorem bufferToBase64url_cons3 (b0 b1 b2 : Nat) (rest : List Nat) :
    bufferToBase64url (b0 :: b1 :: b2 :: rest) =
      stdToUrl (b64Char ((b0 * 65536 + b1 * 256 + b2) / 262144)) ::
      stdToUrl (b64Char ((b0 * 65536 + b1 * 256 + b2) / 4096 % 64)) ::
      stdToUrl (b64Char ((b0 * 65536 + b1 * 256 + b2) / 64 % 64)) ::
      stdToUrl (b64Char ((b0 * 65536 + b1 * 256 + b2) % 64)) ::
      bufferToBase64url rest := by
  have hb : btoaChars (b0 :: b1 :: b2 :: rest) =
      b64Char ((b0 * 65536 + b1 * 256 + b2) / 262144) ::
      b64Char ((b0 * 65536 + b1 * 256 + b2) / 4096 % 64) ::
      b64Char ((b0 * 65536 + b1 * 256 + b2) / 64 % 64) ::
      b64Char ((b0 * 65536 + b1 * 256 + b2) % 64) :: btoaChars rest := rfl
  unfold bufferToBase64url
  rw [hb]
  simp only [List.map_cons]
  rw [filter_ne_pad_cons_b64, filter_ne_pad_cons_b64, filter_ne_pad_cons_b64,
    filter_ne_pad_cons_b64]

/-- Lemma: `bufferToBase64url` on a single trailing byte: two substituted alphabet
characters, the two `=` pads having been stripped. -/
theorem bufferToBase64url_single (b0 : Nat) :
    bufferToBase64url [b0] =
      [stdToUrl (b64Char (b0 * 65536 / 262144)),
       stdToUrl (b64Char (b0 * 65536 / 4096 % 64))] := by
  have hb : btoaChars [b0] =
      [b64Char (b0 * 65536 / 262144), b64Char (b0 * 65536 / 4096 % 64),
       '=', '='] := rfl
  unfold bufferToBase64url
  rw [hb]
  simp only [List.map_cons, List.map_nil,
    show stdToUrl '=' = '=' from rfl]
  rw [filter_ne_pad_cons_b64, filter_ne_pad_cons_b64, filter_ne_pad_cons_pad,
    filter_ne_pad_cons_pad]
  rfl

/-- Lemma: `bufferToBase64url` on a two-byte tail: three substituted alphabet
characters, the `=` pad having been stripped. -/
theorem bufferToBase64url_two (b0 b1 : Nat) :
    bufferToBase64url [b0, b1] =
      [stdToUrl (b64Char ((b0 * 65536 + b1 * 256) / 262144)),
       stdToUrl (b64Char ((b0 * 65536 + b1 * 256) / 4096 % 64)),
       stdToUrl (b64Char ((b0 * 65536 + b1 * 256) / 64 % 64))] := by
  have hb : btoaChars [b0, b1] =
      [b64Char ((b0 * 65536 + b1 * 256) / 262144),
       b64Char ((b0 * 65536 + b1 * 256) / 4096 % 64),
       b64Char ((b0 * 65536 + b1 * 256) / 64 % 64), '='] := rfl
  unfold bufferToBase64url
  rw [hb]
  simp only [List.map_cons, List.map_nil,
    show stdToUrl '=' = '=' from rfl]
  rw [filter_ne_pad_cons_b64, filter_ne_pad_cons_b64, filter_ne_pad_cons_b64,
    filter_ne_pad_cons_pad]
  rfl

/-- Re-padding a two-character group appends two `=`. -/
theorem repad_two (a b : Char) : repad [a, b] = [a, b, '=', '='] := rfl

/-- Re-padding a three-character group appends one `=`. -/
theorem repad_three (a b c : Char) : repad [a, b, c] = [a, b, c, '='] := rfl

/-- The base64url round trip, by strong induction over 3-byte groups. -/
theorem base64url_roundtrip_aux (n : Nat) : ∀ b : List Nat, b.length ≤ n →
    (∀ x ∈ b, x < 256) → base64urlToBytes (bufferToBase64url b) = b := by
  induction n with
  | zero =>
    intro b hlen _
    have hb0 : b = [] := List.length_eq_zero.mp (by omega)
    subst hb0
    rfl
  | succ n ih =>
    intro b hlen hb
    rcases b with _ | ⟨b0, _ | ⟨b1, _ | ⟨b2, rest⟩⟩⟩
    · rfl
    · have h0 : b0 < 256 := hb b0 (by simp)
      rw [bufferToBase64url_single]
      unfold base64urlToBytes
      simp only [List.map_cons, List.map_nil, urlToStd_stdToUrl_b64Char]
      rw [repad_two]
      unfold atobChars
      rw [if_pos ⟨rfl, rfl⟩]
      rw [b64Index_b64Char _ (by omega), b64Index_b64Char _ (by omega)]
      simp only [List.cons.injEq, and_true]
      omega
    · have h0 : b0 < 256 := hb b0 (by simp)
      have h1 : b1 < 256 := hb b1 (by simp)
      rw [bufferToBase64url_two]
      unfold base64urlToBytes
      simp only [List.map_cons, List.map_nil, urlToStd_stdToUrl_b64Char]
      rw [repad_three]
      unfold atobChars
      rw [if_neg (by rintro ⟨hc, -⟩; exact b64Char_ne_eq _ hc),
        if_pos ⟨rfl, rfl⟩]
      rw [b64Index_b64Char _ (by omega), b64Index_b64Char _ (by omega),
        b64Index_b64Char _ (by omega)]
      simp only [List.cons.injEq, and_true]
      omega
    · have h0 : b0 < 256 := hb b0 (by simp)
      have h1 : b1 < 256 := hb b1 (by simp)
      have h2 : b2 < 256 := hb b2 (by simp)
      have hrest : base64urlToBytes (bufferToBase64url rest) = rest := by
        refine ih rest (by simp at hlen; omega) (fun x hx => hb x (by simp [hx]))
      rw [bufferToBase64url_cons3]
      unfold base64urlToBytes
      simp only [List.map_cons, urlToStd_stdToUrl_b64Char]
      rw [show ∀ (c0 c1 c2 c3 : Char) (t : List Char),
          (c0 :: c1 :: c2 :: c3 :: t) = [c0, c1, c2, c3] ++ t from
          fun _ _ _ _ _ => rfl]
      rw [repad_append_four _ _ (by rfl)]
      have hsplit : ([b64Char ((b0 * 65536 + b1 * 256 + b2) / 262144),
          b64Char ((b0 * 65536 + b1 * 256 + b2) / 4096 % 64),
          b64Char ((b0 * 65536 + b1 * 256 + b2) / 64 % 64),
          b64Char ((b0 * 65536 + b1 * 256 + b2) % 64)] ++
          repad (List.map urlToStd (bufferToBase64url rest))) =
          b64Char ((b0 * 65536 + b1 * 256 + b2) / 262144) ::
          b64Char ((b0 * 65536 + b1 * 256 + b2) / 4096 % 64) ::
          b64Char ((b0 * 65536 + b1 * 256 + b2) / 64 % 64) ::
          b64Char ((b0 * 65536 + b1 * 256 + b2) % 64) ::
          repad (List.map urlToStd (bufferToBase64url rest)) := rfl
      rw [hsplit]
      unfold atobChars
      rw [if_neg (by rintro ⟨hc, -⟩; exact b64Char_ne_eq _ hc),
        if_neg (by rintro ⟨hc, -⟩; exact b64Char_ne_eq _ hc)]
      rw [b64Index_b64Char _ (by omega), b64Index_b64Char _ (by omega),
        b64Index_b64Char _ (by omega), b64Index_b64Char _ (by omega)]
      have htail : atobChars (repad (List.map urlToStd
          (bufferToBase64url rest))) = rest := hrest
      rw [htail]
      simp only [List.cons.injEq, and_true]
      refine ⟨by omega, by omega, by omega⟩

/-- C10: decoding the base64url string produced from any byte sequence (each
byte `< 256`, as in a `Uint8Array`) yields exactly the original bytes. -/
theorem base64url_roundtrip (b : List Nat) (hb : ∀ x ∈ b, x < 256) :
    base64urlToBytes (bufferToBase64url b) = b :=
  base64url_roundtrip_aux b.length b (Nat.le_refl _) hb

/-- C10 witness: a concrete byte sequence exercising all substitution cases
round-trips. -/
theorem base64url_roundtrip_witness :
    base64urlToBytes (bufferToBase64url [0, 1, 62, 63, 127, 128, 255, 16]) =
      [0, 1, 62, 63, 127, 128, 255, 16] :=
  base64url_roundtrip [0, 1, 62, 63, 127, 128, 255, 16] (by decide)

end SlopWallet

